import Mathlib

/-!
Verification development for the deterministic core of the fair_llm_tutor
repository: the mode-detection heuristics `TutorManagerAgent.detect_mode`
and `TutorManagerAgent.has_answer_content` (src/agents/manager_agent.py),
the preprocessor request construction (src/main.py), the delimiter-based
field parsing of `StudentWorkAnalyzerTool.use` (src/tools/diagnostic_tools.py)
and the hint-level policy of `SocraticHintGeneratorTool`
(src/tools/pedagogical_tools.py).

Text is modelled as `List Char`.  The Python regex character classes
`\d`, `\s`, `\w`, `[a-zA-Z]` and the `str.lower`/`str.upper`/`str.strip`
methods are modelled on the ASCII range (the repository only ever feeds
them ASCII patterns, and all literals appearing in the code are ASCII).
-/

/-- Model of the regex class `\d` (ASCII digits 0-9). -/
def isDigitC (c : Char) : Bool :=
  decide (48 ≤ c.toNat ∧ c.toNat ≤ 57)

/-- Model of the regex class `[a-zA-Z]` (ASCII letters). -/
def isAlphaC (c : Char) : Bool :=
  decide ((65 ≤ c.toNat ∧ c.toNat ≤ 90) ∨ (97 ≤ c.toNat ∧ c.toNat ≤ 122))

/-- Model of the regex class `\s` and of the whitespace set used by
`str.strip` (space, tab, newline, carriage return, vertical tab, form feed). -/
def pyIsSpace (c : Char) : Bool :=
  decide (c.toNat = 32 ∨ c.toNat = 9 ∨ c.toNat = 10 ∨ c.toNat = 13 ∨
          c.toNat = 11 ∨ c.toNat = 12)

/-- Model of the regex class `\w` (word characters: letters, digits, underscore),
used for the `\b` word-boundary assertion. -/
def isWordC (c : Char) : Bool :=
  isAlphaC c || isDigitC c || decide (c.toNat = 95)

/-- The arithmetic-operator class `[+\-*/]` of the regex
`\d+\s*[+\-*/]\s*\d+` in `detect_mode`. -/
def isOpC (c : Char) : Bool :=
  decide (c.toNat = 43 ∨ c.toNat = 45 ∨ c.toNat = 42 ∨ c.toNat = 47)

/-- Model of `str.lower` on one character (ASCII range, as produced by
Python `lower` on the ASCII letters; other characters are left unchanged). -/
def pyLowerC (c : Char) : Char :=
  if h : 65 ≤ c.toNat ∧ c.toNat ≤ 90 then
    Char.ofNatAux (c.toNat + 32) (Or.inl (by omega))
  else c

/-- Model of `str.upper` on one character (ASCII range). -/
def pyUpperC (c : Char) : Char :=
  if h : 97 ≤ c.toNat ∧ c.toNat ≤ 122 then
    Char.ofNatAux (c.toNat - 32) (Or.inl (by omega))
  else c

theorem toNat_ofNatAux (n : Nat) (h : n.isValidChar) :
    (Char.ofNatAux n h).toNat = n := rfl

theorem toNat_pyLowerC (c : Char) :
    (pyLowerC c).toNat =
      if 65 ≤ c.toNat ∧ c.toNat ≤ 90 then c.toNat + 32 else c.toNat := by
  unfold pyLowerC
  split <;> simp_all [toNat_ofNatAux]

theorem toNat_pyUpperC (c : Char) :
    (pyUpperC c).toNat =
      if 97 ≤ c.toNat ∧ c.toNat ≤ 122 then c.toNat - 32 else c.toNat := by
  unfold pyUpperC
  split <;> simp_all [toNat_ofNatAux]

/-- Uppercasing after lowercasing agrees with direct uppercasing, so the
`severity.upper()` comparisons in the hint generator are case-insensitive. -/
theorem pyUpperC_pyLowerC (c : Char) : pyUpperC (pyLowerC c) = pyUpperC c := by
  by_cases h : 65 ≤ c.toNat ∧ c.toNat ≤ 90
  · have hl : (pyLowerC c).toNat = c.toNat + 32 := by
      rw [toNat_pyLowerC, if_pos h]
    have h1 : pyUpperC (pyLowerC c) = Char.ofNatAux ((pyLowerC c).toNat - 32)
        (Or.inl (by omega)) := by
      unfold pyUpperC
      rw [dif_pos (by omega)]
    have h2 : pyUpperC c = c := by
      unfold pyUpperC
      rw [dif_neg (by omega)]
    rw [h1, h2]
    apply Char.eq_of_val_eq
    apply UInt32.ext
    show (Char.ofNatAux ((pyLowerC c).toNat - 32) _).toNat = c.toNat
    rw [toNat_ofNatAux, hl]
    omega
  · have hl : pyLowerC c = c := by
      unfold pyLowerC
      rw [dif_neg h]
    rw [hl]

/-- Lowercasing preserves digit-ness (a letter never becomes a digit). -/
theorem isDigitC_pyLowerC (c : Char) : isDigitC (pyLowerC c) = isDigitC c := by
  simp only [isDigitC, toNat_pyLowerC]
  by_cases h : 65 ≤ c.toNat ∧ c.toNat ≤ 90
  · rw [if_pos h]
    simp only [decide_eq_decide]
    omega
  · rw [if_neg h]

/-- Lowercasing fixes every character that is not an ASCII upper-case letter;
in particular it fixes digits. -/
theorem pyLowerC_of_digit (c : Char) (h : isDigitC c = true) : pyLowerC c = c := by
  have hc : 48 ≤ c.toNat ∧ c.toNat ≤ 57 := by
    simpa [isDigitC] using h
  unfold pyLowerC
  rw [dif_neg (by omega)]

theorem not_space_of_digit (c : Char) (h : isDigitC c = true) :
    pyIsSpace c = false := by
  have hc : 48 ≤ c.toNat ∧ c.toNat ≤ 57 := by simpa [isDigitC] using h
  simp only [pyIsSpace, decide_eq_false_iff_not]
  omega

theorem not_alpha_of_digit (c : Char) (h : isDigitC c = true) :
    isAlphaC c = false := by
  have hc : 48 ≤ c.toNat ∧ c.toNat ≤ 57 := by simpa [isDigitC] using h
  simp only [isAlphaC, decide_eq_false_iff_not]
  omega

theorem not_op_of_digit (c : Char) (h : isDigitC c = true) :
    isOpC c = false := by
  have hc : 48 ≤ c.toNat ∧ c.toNat ≤ 57 := by simpa [isDigitC] using h
  simp only [isOpC, decide_eq_false_iff_not]
  omega

theorem not_word_of_space (c : Char) (h : pyIsSpace c = true) :
    isWordC c = false := by
  have hc := of_decide_eq_true h
  simp only [isWordC, isAlphaC, isDigitC, Bool.or_eq_false_iff,
    decide_eq_false_iff_not]
  omega

/-- Model of `str.strip` (drop leading and trailing whitespace). -/
def pyStrip (s : List Char) : List Char :=
  ((s.dropWhile pyIsSpace).reverse.dropWhile pyIsSpace).reverse

theorem dropWhile_eq_nil_of_all {p : Char → Bool} {s : List Char}
    (h : ∀ c ∈ s, p c = true) : s.dropWhile p = [] := by
  induction s with
  | nil => rfl
  | cons c rest ih =>
    rw [List.dropWhile_cons, if_pos (h c (by simp))]
    exact ih fun x hx => h x (by simp [hx])

theorem dropWhile_eq_self_of_none {p : Char → Bool} {s : List Char}
    (h : ∀ c ∈ s, p c = false) : s.dropWhile p = s := by
  cases s with
  | nil => rfl
  | cons c rest =>
    rw [List.dropWhile_cons, if_neg (by simp [h c (by simp)])]

/-- Stripping an all-whitespace string (Python falsy test `not s.strip()`). -/
theorem pyStrip_eq_nil_of_all_space {s : List Char}
    (h : ∀ c ∈ s, pyIsSpace c = true) : pyStrip s = [] := by
  unfold pyStrip
  rw [dropWhile_eq_nil_of_all h]
  rfl

/-- Stripping a string with no whitespace at all leaves it unchanged. -/
theorem pyStrip_eq_self_of_no_space {s : List Char}
    (h : ∀ c ∈ s, pyIsSpace c = false) : pyStrip s = s := by
  unfold pyStrip
  rw [dropWhile_eq_self_of_none h,
    dropWhile_eq_self_of_none (by intro c hc; exact h c (List.mem_reverse.mp hc)),
    List.reverse_reverse]

/-- Literal-prefix test used by the pattern scanners (pattern first). -/
def startsWithL : List Char → List Char → Bool
  | [], _ => true
  | _ :: _, [] => false
  | p :: ps, c :: cs => decide (p = c) && startsWithL ps cs

/-- Literal-suffix test (pattern first). -/
def endsWithL (pat s : List Char) : Bool :=
  startsWithL pat.reverse s.reverse

/-- Model of the Python substring operator `pat in s`. -/
def containsL (pat : List Char) : List Char → Bool
  | [] => startsWithL pat []
  | c :: rest => startsWithL pat (c :: rest) || containsL pat rest

/-- Generic left-to-right scanner for `re.search`: tries the position
matcher `here` at every suffix, passing along whether the previous
character was a word character (for `\b` assertions).  At the start of
the text there is no previous word character. -/
def scanFrom (here : Bool → List Char → Bool) : Bool → List Char → Bool
  | _, [] => false
  | prevW, c :: rest => here prevW (c :: rest) || scanFrom here (isWordC c) rest

/-- Position matcher for the word-bounded literal patterns
`\bPHRASE\b` (all phrases used in the source start and end with a word
character, so the boundaries amount to: previous character not a word
character, and the character after the phrase, if any, not a word
character). -/
def wbHere (phrase : List Char) (prevW : Bool) (u : List Char) : Bool :=
  !prevW && startsWithL phrase u &&
    (match u.drop phrase.length with
     | [] => true
     | c :: _ => !isWordC c)

/-- Model of `re.search(r"\bPHRASE\b", text)` for a literal phrase. -/
def searchWB (phrase : List Char) (t : List Char) : Bool :=
  scanFrom (wbHere phrase) false t

/-- Tail matcher for one alternative of the cancellation pattern: the
alternative literal followed by a `\b` boundary. -/
def altHere (alt : List Char) (v : List Char) : Bool :=
  startsWithL alt v &&
    (match v.drop alt.length with
     | [] => true
     | c :: _ => !isWordC c)

/-- The alternation `confused|stuck|no idea|lost|a question` of the
cancellation regex, applied after the whitespace run. -/
def cancelAlt (v : List Char) : Bool :=
  altHere ("confused".data) v || altHere ("stuck".data) v ||
  altHere ("no idea".data) v || altHere ("lost".data) v ||
  altHere ("a question".data) v

/-- Matcher for `\s+(?:confused|stuck|no idea|lost|a question)\b`: at
least one whitespace character, then (since every alternative starts
with a non-whitespace character, the greedy `\s+` must consume the whole
whitespace run) one of the alternatives with a trailing boundary. -/
def cancelTail : List Char → Bool
  | [] => false
  | c :: cs => pyIsSpace c && cancelAlt (cs.dropWhile pyIsSpace)

/-- Position matcher for the cancellation regex
`\bi got\s+(?:confused|stuck|no idea|lost|a question)\b`. -/
def cancelHere (prevW : Bool) (u : List Char) : Bool :=
  !prevW && startsWithL ("i got".data) u && cancelTail (u.drop 5)

/-- Model of `re.search` for the cancellation regex. -/
def cancelSearch (t : List Char) : Bool :=
  scanFrom cancelHere false t

/-- After an optional whitespace run, the next character is a letter
(tail of the units pattern). -/
def letterAfterWs (rest : List Char) : Bool :=
  match rest.dropWhile pyIsSpace with
  | c :: _ => isAlphaC c
  | [] => false

/-- Model of `re.search(r"\d+\s*[a-zA-Z]+(?:/[a-zA-Z]+)?", text)`: such a
match exists exactly when some digit is followed by optional whitespace
and then a letter (the trailing `+` and the optional `/letters` group do
not affect existence). -/
def unitSearch : List Char → Bool
  | [] => false
  | c :: rest => (isDigitC c && letterAfterWs rest) || unitSearch rest

/-- Tail of the `=\s*-?\d+` pattern after the whitespace run: an optional
minus sign followed by a digit. -/
def eqTail : List Char → Bool
  | [] => false
  | c :: rest =>
    if decide (c = '-') then
      (match rest with
       | d :: _ => isDigitC d
       | [] => false)
    else isDigitC c

/-- Model of `re.search(r"=\s*-?\d+", text)`. -/
def eqNumSearch : List Char → Bool
  | [] => false
  | c :: rest => (decide (c = '=') && eqTail (rest.dropWhile pyIsSpace)) || eqNumSearch rest

/-- Tail of the arithmetic pattern after the first digit and whitespace
run: an operator, optional whitespace, then a digit. -/
def arithTail : List Char → Bool
  | [] => false
  | c :: rest =>
    isOpC c &&
      (match rest.dropWhile pyIsSpace with
       | d :: _ => isDigitC d
       | [] => false)

/-- Model of `re.search(r"\d+\s*[+\-*/]\s*\d+", text)`. -/
def arithSearch : List Char → Bool
  | [] => false
  | c :: rest => (isDigitC c && arithTail (rest.dropWhile pyIsSpace)) || arithSearch rest

/-- Scanner monotonicity: a pointwise stronger position matcher finds a
match wherever the weaker one does. -/
theorem scanFrom_mono {here₁ here₂ : Bool → List Char → Bool}
    (h : ∀ b u, here₁ b u = true → here₂ b u = true) :
    ∀ t b, scanFrom here₁ b t = true → scanFrom here₂ b t = true := by
  intro t
  induction t with
  | nil => intro b hb; exact absurd hb (by simp [scanFrom])
  | cons c rest ih =>
    intro b hb
    rw [scanFrom] at hb ⊢
    rcases Bool.or_eq_true_iff.mp hb with h1 | h2
    · exact Bool.or_eq_true_iff.mpr (Or.inl (h b _ h1))
    · exact Bool.or_eq_true_iff.mpr (Or.inr (ih _ h2))

/-- A scanner whose position matcher fails on every text of
`Q`-characters fails on a text of `Q`-characters. -/
theorem scanFrom_false_of {here : Bool → List Char → Bool} {Q : Char → Bool}
    (hh : ∀ b u, (∀ c ∈ u, Q c = true) → here b u = false) :
    ∀ t b, (∀ c ∈ t, Q c = true) → scanFrom here b t = false := by
  intro t
  induction t with
  | nil => intro b _; rfl
  | cons c rest ih =>
    intro b hQ
    rw [scanFrom, hh b _ hQ, Bool.false_or]
    exact ih _ fun x hx => hQ x (by simp [hx])

theorem startsWithL_false_of {p : Char} {ps u : List Char} {Q : Char → Bool}
    (hp : Q p = false) (hu : ∀ c ∈ u, Q c = true) :
    startsWithL (p :: ps) u = false := by
  cases u with
  | nil => rfl
  | cons c cs =>
    rw [startsWithL]
    have : ¬(p = c) := by
      intro he
      rw [he] at hp
      rw [hu c (by simp)] at hp
      exact absurd hp (by simp)
    simp [this]

/-- The two interaction modes returned by `detect_mode` (the Python code
uses the strings "HINT" and "CONCEPT_EXPLANATION"; `none` models its
`None` return). -/
inductive Mode where
  | hint
  | conceptExplanation
deriving DecidableEq, Repr

/-- Converts a Bool signal into its score contribution. -/
def b2i (b : Bool) : Int := if b then 1 else 0

/-- Model of `text.endswith("?")`. -/
def endsQ (t : List Char) : Bool :=
  match t.reverse with
  | c :: _ => decide (c = '?')
  | [] => false

/-- CONCEPT indicators of `detect_mode` before the cancellation rule:
trailing question mark plus the six word-bounded concept phrases. -/
def conceptBase (t : List Char) : Int :=
  b2i (endsQ t) +
  b2i (searchWB ("what is".data) t) + b2i (searchWB ("how do".data) t) +
  b2i (searchWB ("explain".data) t) + b2i (searchWB ("help me".data) t) +
  b2i (searchWB ("can you".data) t) + b2i (searchWB ("why".data) t)

/-- The three word-bounded HINT phrases of `detect_mode`. -/
def phraseScore (t : List Char) : Int :=
  b2i (searchWB ("my answer is".data) t) + b2i (searchWB ("i got".data) t) +
  b2i (searchWB ("i calculated".data) t)

/-- The three numeric HINT signals of `detect_mode`: number with units,
equals-number, arithmetic expression. -/
def numericScore (t : List Char) : Int :=
  b2i (unitSearch t) + b2i (eqNumSearch t) + b2i (arithSearch t)

/-- The cancellation adjustment of `detect_mode`: 1 when both `\bi got\b`
and the help-seeking pattern match, else 0. -/
def cancelAdj (t : List Char) : Int :=
  if searchWB ("i got".data) t && cancelSearch t then 1 else 0

/-- HINT score of `detect_mode` (phrases, minus the cancellation,
plus the numeric signals). -/
def hintScore (t : List Char) : Int :=
  phraseScore t + numericScore t - cancelAdj t

/-- HINT score without the cancellation rule applied. -/
def hintScoreRaw (t : List Char) : Int :=
  phraseScore t + numericScore t

/-- CONCEPT score of `detect_mode` (base indicators plus the
cancellation adjustment). -/
def conceptScore (t : List Char) : Int :=
  conceptBase t + cancelAdj t

/-- Model of `user_input.strip().lower()`. -/
def normalizeText (s : List Char) : List Char :=
  (pyStrip s).map pyLowerC

/-- Model of `TutorManagerAgent.detect_mode`
(src/agents/manager_agent.py, lines 54-104). -/
def detectMode (userInput : List Char) : Option Mode :=
  if userInput = [] ∨ pyStrip userInput = [] then none
  else
    let text := normalizeText userInput
    if hintScore text > conceptScore text then some Mode.hint
    else if conceptScore text > hintScore text then some Mode.conceptExplanation
    else if hintScore text > 0 then some Mode.hint
    else none

/-- Model of `TutorManagerAgent.has_answer_content`
(src/agents/manager_agent.py, lines 106-125). -/
def hasAnswerContent (text : List Char) : Bool :=
  if text = [] then false
  else
    let t := text.map pyLowerC
    if !(t.any fun c => isDigitC c) then false
    else
      searchWB ("the answer".data) t || searchWB ("my answer".data) t ||
      searchWB ("answer is".data) t || eqNumSearch t || unitSearch t

theorem not_space_of_alpha (c : Char) (h : isAlphaC c = true) :
    pyIsSpace c = false := by
  have hc := of_decide_eq_true h
  simp only [pyIsSpace, decide_eq_false_iff_not]
  omega

/-- A word-bounded phrase that starts with a non-digit character never
matches inside an all-digit text. -/
theorem searchWB_false_digits (phrase t : List Char)
    (hp : (match phrase with | [] => false | p :: _ => !isDigitC p) = true)
    (ht : ∀ c ∈ t, isDigitC c = true) : searchWB phrase t = false := by
  cases phrase with
  | nil => simp at hp
  | cons p ps =>
    refine @scanFrom_false_of _ isDigitC ?_ t false ht
    intro b u hu
    rw [wbHere, @startsWithL_false_of p ps u isDigitC (by simpa using hp) hu]
    simp

/-- The cancellation pattern never matches inside an all-digit text. -/
theorem cancelSearch_false_digits (t : List Char)
    (ht : ∀ c ∈ t, isDigitC c = true) : cancelSearch t = false := by
  refine @scanFrom_false_of _ isDigitC ?_ t false ht
  intro b u hu
  rw [cancelHere,
    @startsWithL_false_of 'i' (" got".data) u isDigitC (by decide) hu]
  simp

theorem unitSearch_false_digits (t : List Char)
    (ht : ∀ c ∈ t, isDigitC c = true) : unitSearch t = false := by
  induction t with
  | nil => rfl
  | cons c rest ih =>
    rw [unitSearch]
    have hrest : letterAfterWs rest = false := by
      cases rest with
      | nil => rfl
      | cons d ds =>
        rw [letterAfterWs, List.dropWhile_cons,
          if_neg (by simp [not_space_of_digit d (ht d (by simp))])]
        exact not_alpha_of_digit d (ht d (by simp))
    rw [hrest, Bool.and_false, Bool.false_or]
    exact ih fun x hx => ht x (by simp [hx])

theorem eqNumSearch_false_digits (t : List Char)
    (ht : ∀ c ∈ t, isDigitC c = true) : eqNumSearch t = false := by
  induction t with
  | nil => rfl
  | cons c rest ih =>
    rw [eqNumSearch]
    have hc : decide (c = '=') = false := by
      simp only [decide_eq_false_iff_not]
      intro he
      have := ht c (by simp)
      rw [he] at this
      exact absurd this (by decide)
    rw [hc, Bool.false_and, Bool.false_or]
    exact ih fun x hx => ht x (by simp [hx])

theorem arithSearch_false_digits (t : List Char)
    (ht : ∀ c ∈ t, isDigitC c = true) : arithSearch t = false := by
  induction t with
  | nil => rfl
  | cons c rest ih =>
    rw [arithSearch]
    have hrest : arithTail (rest.dropWhile pyIsSpace) = false := by
      have hdw : rest.dropWhile pyIsSpace = rest :=
        dropWhile_eq_self_of_none fun x hx => not_space_of_digit x (ht x (by simp [hx]))
      rw [hdw]
      cases rest with
      | nil => rfl
      | cons d ds =>
        rw [arithTail, not_op_of_digit d (ht d (by simp)), Bool.false_and]
    rw [hrest, Bool.and_false, Bool.false_or]
    exact ih fun x hx => ht x (by simp [hx])

theorem endsQ_false_digits (t : List Char)
    (ht : ∀ c ∈ t, isDigitC c = true) : endsQ t = false := by
  rw [endsQ]
  cases hr : t.reverse with
  | nil => rfl
  | cons c cs =>
    have hc : c ∈ t := by
      rw [← List.mem_reverse, hr]
      simp
    simp only [decide_eq_false_iff_not]
    intro he
    have := ht c hc
    rw [he] at this
    exact absurd this (by decide)

theorem map_pyLowerC_of_digits {s : List Char}
    (h : ∀ c ∈ s, isDigitC c = true) : s.map pyLowerC = s := by
  induction s with
  | nil => rfl
  | cons c rest ih =>
    rw [List.map_cons, pyLowerC_of_digit c (h c (by simp)),
      ih fun x hx => h x (by simp [hx])]

theorem detectMode_not_blank (s : List Char)
    (hb : ¬(s = [] ∨ pyStrip s = [])) :
    detectMode s =
      (if hintScore (normalizeText s) > conceptScore (normalizeText s) then
        some Mode.hint
      else if conceptScore (normalizeText s) > hintScore (normalizeText s) then
        some Mode.conceptExplanation
      else if hintScore (normalizeText s) > 0 then some Mode.hint
      else none) := by
  rw [detectMode, if_neg hb]

/-- Claim C8: `detect_mode` returns `None` for every empty or
whitespace-only input, and for every input consisting only of digit
characters. -/
theorem detectMode_blank_or_digits :
    (∀ s : List Char, (∀ c ∈ s, pyIsSpace c = true) → detectMode s = none) ∧
    (∀ s : List Char, (∀ c ∈ s, isDigitC c = true) → detectMode s = none) := by
  constructor
  · intro s h
    rw [detectMode, if_pos (Or.inr (pyStrip_eq_nil_of_all_space h))]
  · intro s h
    by_cases hs : s = []
    · rw [detectMode, if_pos (Or.inl hs)]
    · have hstrip : pyStrip s = s :=
        pyStrip_eq_self_of_no_space fun c hc => not_space_of_digit c (h c hc)
    -- the normalized text is the input itself, and every signal fails on it
      have hnorm : normalizeText s = s := by
        rw [normalizeText, hstrip, map_pyLowerC_of_digits h]
      have hcb : conceptBase s = 0 := by
        rw [conceptBase, endsQ_false_digits s h,
          searchWB_false_digits ("what is".data) s (by decide) h,
          searchWB_false_digits ("how do".data) s (by decide) h,
          searchWB_false_digits ("explain".data) s (by decide) h,
          searchWB_false_digits ("help me".data) s (by decide) h,
          searchWB_false_digits ("can you".data) s (by decide) h,
          searchWB_false_digits ("why".data) s (by decide) h]
        rfl
      have hps : phraseScore s = 0 := by
        rw [phraseScore,
          searchWB_false_digits ("my answer is".data) s (by decide) h,
          searchWB_false_digits ("i got".data) s (by decide) h,
          searchWB_false_digits ("i calculated".data) s (by decide) h]
        rfl
      have hns : numericScore s = 0 := by
        rw [numericScore, unitSearch_false_digits s h,
          eqNumSearch_false_digits s h, arithSearch_false_digits s h]
        rfl
      have hca : cancelAdj s = 0 := by
        rw [cancelAdj, searchWB_false_digits ("i got".data) s (by decide) h]
        rfl
      have hh : hintScore (normalizeText s) = 0 := by
        rw [hnorm, hintScore, hps, hns, hca]; ring
      have hc : conceptScore (normalizeText s) = 0 := by
        rw [hnorm, conceptScore, hcb, hca]; ring
      rw [detectMode_not_blank s (by simp [hs, hstrip]), hh, hc]
      norm_num

theorem detectMode_blank_or_digits_witness :
    detectMode ("   ".data) = none ∧ detectMode ("42".data) = none :=
  ⟨detectMode_blank_or_digits.1 ("   ".data) (by decide),
   detectMode_blank_or_digits.2 ("42".data) (by decide)⟩

theorem scores_nil : hintScore ([] : List Char) = 0 ∧ conceptScore ([] : List Char) = 0 := by
  constructor <;> rfl

/-- Claim C3: the decision step of `detect_mode` — HINT when the hint
score is strictly larger, CONCEPT_EXPLANATION when the concept score is
strictly larger, `None` on a 0-0 tie, and HINT on a positive tie. -/
theorem detectMode_decision (s : List Char) :
    (hintScore (normalizeText s) > conceptScore (normalizeText s) →
      detectMode s = some Mode.hint) ∧
    (conceptScore (normalizeText s) > hintScore (normalizeText s) →
      detectMode s = some Mode.conceptExplanation) ∧
    (hintScore (normalizeText s) = conceptScore (normalizeText s) ∧
      hintScore (normalizeText s) = 0 → detectMode s = none) ∧
    (hintScore (normalizeText s) = conceptScore (normalizeText s) ∧
      hintScore (normalizeText s) > 0 → detectMode s = some Mode.hint) := by
  by_cases hb : s = [] ∨ pyStrip s = []
  · have hn : normalizeText s = [] := by
      rcases hb with hb | hb
      · rw [normalizeText, hb]
        rfl
      · rw [normalizeText, hb]
        rfl
    have hmode : detectMode s = none := by
      rw [detectMode, if_pos hb]
    rw [hn, scores_nil.1, scores_nil.2, hmode]
    refine ⟨fun h => absurd h (by norm_num), fun h => absurd h (by norm_num),
      fun _ => rfl, fun h => absurd h.2 (by norm_num)⟩
  · rw [detectMode_not_blank s hb]
    refine ⟨fun h => ?_, fun h => ?_, fun h => ?_, fun h => ?_⟩
    · rw [if_pos h]
    · rw [if_neg (by omega), if_pos h]
    · rw [if_neg (by omega), if_neg (by omega), if_neg (by omega)]
    · rw [if_neg (by omega), if_neg (by omega), if_pos h.2]

theorem detectMode_decision_witness :
    hintScore (normalizeText ("i calculated 5".data)) >
      conceptScore (normalizeText ("i calculated 5".data)) ∧
    detectMode ("i calculated 5".data) = some Mode.hint :=
  ⟨by decide, (detectMode_decision ("i calculated 5".data)).1 (by decide)⟩

theorem cancelSearch_implies_igot (t : List Char) (h : cancelSearch t = true) :
    searchWB ("i got".data) t = true := by
  refine @scanFrom_mono cancelHere (wbHere ("i got".data)) ?_ t false h
  intro b u hu
  rw [cancelHere] at hu
  rcases Bool.and_eq_true_iff.mp hu with ⟨h1, h2⟩
  rcases Bool.and_eq_true_iff.mp h1 with ⟨hb, hsw⟩
  rw [wbHere, hb, hsw]
  have hlen : ("i got".data).length = 5 := rfl
  rw [hlen]
  cases hd : u.drop 5 with
  | nil => rfl
  | cons c cs =>
    rw [hd] at h2
    rw [cancelTail] at h2
    rcases Bool.and_eq_true_iff.mp h2 with ⟨hsp, _⟩
    simp [not_word_of_space c hsp]

/-- Claim C6: the cancellation rule — whenever the help-seeking pattern
`i got (confused|stuck|no idea|lost|a question)` matches the normalized
text, `detect_mode` subtracts 1 from the hint score and adds 1 to the
concept score before deciding; in particular the documented example
routes to CONCEPT_EXPLANATION. -/
theorem detectMode_cancellation :
    (∀ s : List Char, cancelSearch (normalizeText s) = true →
      hintScore (normalizeText s) = hintScoreRaw (normalizeText s) - 1 ∧
      conceptScore (normalizeText s) = conceptBase (normalizeText s) + 1) ∧
    detectMode ("I got confused about how to do this".data) =
      some Mode.conceptExplanation := by
  constructor
  · intro s h
    have higot := cancelSearch_implies_igot _ h
    have hadj : cancelAdj (normalizeText s) = 1 := by
      rw [cancelAdj, if_pos (by rw [higot, h]; rfl)]
    constructor
    · rw [hintScore, hintScoreRaw, hadj]
    · rw [conceptScore, hadj]
  · decide

theorem detectMode_cancellation_witness :
    cancelSearch (normalizeText ("I got stuck".data)) = true ∧
    conceptScore (normalizeText ("I got stuck".data)) =
      conceptBase (normalizeText ("I got stuck".data)) + 1 :=
  ⟨by decide,
   (detectMode_cancellation.1 ("I got stuck".data) (by decide)).2⟩

theorem dropWhile_all_append {p : Char → Bool} {mid : List Char} (c : Char)
    (suf : List Char) (hmid : ∀ x ∈ mid, p x = true) (hc : p c = false) :
    (mid ++ c :: suf).dropWhile p = c :: suf := by
  induction mid with
  | nil => rw [List.nil_append, List.dropWhile_cons, if_neg (by simp [hc])]
  | cons m ms ih =>
    rw [List.cons_append, List.dropWhile_cons, if_pos (by simp [hmid m (by simp)])]
    exact ih fun x hx => hmid x (by simp [hx])

/-- Characterization of the "number with units" signal, claim C2 as
amended: the regex `\d+\s*[a-zA-Z]+(?:/[a-zA-Z]+)?` finds a match exactly
when some digit is followed by ZERO OR MORE whitespace characters and
then a letter — whitespace between the numeral and the letters is
allowed by the `\s*` part (the code comment gives "10 m/s" as an
example), so "50 kg" fires the signal. -/
theorem unitSearch_iff (t : List Char) :
    unitSearch t = true ↔
      ∃ (pre mid suf : List Char) (d c : Char),
        t = pre ++ d :: (mid ++ c :: suf) ∧ isDigitC d = true ∧
        (∀ x ∈ mid, pyIsSpace x = true) ∧ isAlphaC c = true := by
  constructor
  · intro h
    induction t with
    | nil => exact absurd h (by simp [unitSearch])
    | cons a rest ih =>
      rw [unitSearch] at h
      rcases Bool.or_eq_true_iff.mp h with h1 | h2
      · rcases Bool.and_eq_true_iff.mp h1 with ⟨hd, hl⟩
        rw [letterAfterWs] at hl
        cases hdw : rest.dropWhile pyIsSpace with
        | nil => rw [hdw] at hl; exact absurd hl (by simp)
        | cons c suf =>
          rw [hdw] at hl
          refine ⟨[], rest.takeWhile pyIsSpace, suf, a, c, ?_, hd, ?_, hl⟩
          · rw [List.nil_append, ← hdw, List.takeWhile_append_dropWhile]
          · intro x hx
            exact List.mem_takeWhile_imp hx
      · rcases ih h2 with ⟨pre, mid, suf, d, c, heq, hd, hmid, hc⟩
        exact ⟨a :: pre, mid, suf, d, c, by rw [heq, List.cons_append], hd, hmid, hc⟩
  · rintro ⟨pre, mid, suf, d, c, heq, hd, hmid, hc⟩
    subst heq
    induction pre with
    | nil =>
      rw [List.nil_append, unitSearch, letterAfterWs,
        dropWhile_all_append c suf hmid (not_space_of_alpha c hc), hd]
      simp [hc]
    | cons a pres ih =>
      rw [List.cons_append, unitSearch, ih]
      simp

/-- Counterexample to claim C2 as stated: in "50 kg" the only
digit-and-letters occurrence has whitespace between the numeral and the
letters, yet the "number with units" signal DOES fire — the lone hint
signal makes `detect_mode` return HINT instead of `None`, and
`has_answer_content` returns true. -/
theorem unit_signal_fires_with_space :
    unitSearch (normalizeText ("50 kg".data)) = true ∧
    detectMode ("50 kg".data) = some Mode.hint ∧
    hasAnswerContent ("50 kg".data) = true := by
  refine ⟨by decide, by decide, by decide⟩

/-- Claim C9: `has_answer_content` is false for any text with no digit
anywhere (the digit short-circuit), even when phrases like "the answer"
appear; the two documented examples behave as specified. -/
theorem hasAnswerContent_requires_digit :
    (∀ t : List Char, (∀ c ∈ t, isDigitC c = false) →
      hasAnswerContent t = false) ∧
    hasAnswerContent ("What is momentum?".data) = false ∧
    hasAnswerContent ("Can you explain why 50 is the answer?".data) = true := by
  refine ⟨?_, by decide, by decide⟩
  intro t h
  rw [hasAnswerContent]
  by_cases ht : t = []
  · rw [if_pos ht]
  · rw [if_neg ht]
    have hany : (t.map pyLowerC).any (fun c => isDigitC c) = false := by
      rw [List.any_eq_false]
      intro x hx
      rcases List.mem_map.mp hx with ⟨c, hc, rfl⟩
      rw [isDigitC_pyLowerC]
      simp [h c hc]
    show (if (!(t.map pyLowerC).any fun c => isDigitC c) = true then false
      else _) = false
    rw [hany]
    rfl

theorem hasAnswerContent_requires_digit_witness :
    hasAnswerContent ("the answer is softness".data) = false :=
  hasAnswerContent_requires_digit.1 ("the answer is softness".data) (by decide)

/-- The apostrophe character (kept out of string literals). -/
def apos : Char := Char.ofNat 39

/-- The fixed request body built by `TutorSession.process_student_work`
(src/main.py, lines 221-227). -/
def baseRequest (problemText studentWork topic : List Char) : List Char :=
  ("PROBLEM: ".data) ++ problemText ++ ("\n\nSTUDENT WORK: ".data) ++
  studentWork ++ ("\n\nTOPIC: ".data) ++ topic ++
  ("\n\nPlease analyze the student".data) ++ [apos] ++
  ("s work, identify any misconceptions, and provide an appropriate hint or concept explanation. Remember: NEVER reveal the answer!".data)

/-- The strings "HINT" and "CONCEPT_EXPLANATION" returned by `detect_mode`. -/
def modeName : Mode → List Char
  | Mode.hint => "HINT".data
  | Mode.conceptExplanation => "CONCEPT_EXPLANATION".data

/-- The preprocessor warning line appended in src/main.py, lines 233-238. -/
def warningLine : List Char :=
  ("\nPREPROCESSOR WARNING: Answer-like content detected. SafetyGuard REQUIRED.".data)

/-- The preprocessor mode header (src/main.py, lines 230-238): present
exactly when `detect_mode` returns a mode; carries the warning line when
the mode is CONCEPT_EXPLANATION and `has_answer_content` holds. -/
def requestHeader (studentWork : List Char) : Option (List Char) :=
  match detectMode studentWork with
  | none => none
  | some m =>
    some (("PREPROCESSOR DETECTED MODE: ".data) ++ modeName m ++
      (if decide (m = Mode.conceptExplanation) && hasAnswerContent studentWork
       then warningLine else []))

/-- The full request string of `process_student_work` (src/main.py,
line 239): header plus blank line plus body when a mode was detected,
the bare body otherwise. -/
def processStudentWorkRequest (p w t : List Char) : List Char :=
  match requestHeader w with
  | none => baseRequest p w t
  | some pre => pre ++ ("\n\n".data) ++ baseRequest p w t

/-- Does a (possibly absent) header end in the warning line? -/
def hasWarnTag : Option (List Char) → Bool
  | none => false
  | some pre => endsWithL warningLine pre

/-- Claim C7: the preprocessor warning line is appended if and only if
`detect_mode` classifies the student work as CONCEPT_EXPLANATION and
`has_answer_content` is true on the same input; and when `detect_mode`
returns `None` no header at all is prepended. -/
theorem preprocessor_warning_iff (w : List Char) :
    (hasWarnTag (requestHeader w) =
      (decide (detectMode w = some Mode.conceptExplanation) &&
        hasAnswerContent w)) ∧
    (∀ p t : List Char, detectMode w = none →
      processStudentWorkRequest p w t = baseRequest p w t) := by
  constructor
  · cases hm : detectMode w with
    | none => rw [requestHeader, hm]; simp [hasWarnTag]
    | some m =>
      cases m with
      | hint =>
        rw [requestHeader, hm]
        cases hA : hasAnswerContent w <;> simp [hasWarnTag, hm] <;> decide
      | conceptExplanation =>
        rw [requestHeader, hm]
        cases hA : hasAnswerContent w <;> simp [hasWarnTag, hm, hA] <;> decide
  · intro p t h
    rw [processStudentWorkRequest, requestHeader, h]

theorem preprocessor_warning_iff_witness :
    processStudentWorkRequest ("Solve x".data) ("hello".data) ("algebra".data) =
      baseRequest ("Solve x".data) ("hello".data) ("algebra".data) :=
  (preprocessor_warning_iff ("hello".data)).2 ("Solve x".data) ("algebra".data)
    (by decide)

/-- Model of Python `s.split("|||")`: cut at every non-overlapping
occurrence of three pipes, left to right (accumulator holds the current
segment reversed). -/
def splitAux : List Char → List Char → List (List Char)
  | '|' :: '|' :: '|' :: rest, acc => acc.reverse :: splitAux rest []
  | c :: rest, acc => splitAux rest (c :: acc)
  | [], acc => [acc.reverse]

/-- Model of `tool_input.split("|||")`. -/
def splitOn3 (s : List Char) : List (List Char) :=
  splitAux s []

/-- Model of `part.split(":", 1)[1]`: everything after the first colon
(callers only apply this under a prefix guard that guarantees a colon). -/
def afterFirstColon (p : List Char) : List Char :=
  (p.dropWhile fun c => !decide (c = ':')).drop 1

/-- The three fields collected by `StudentWorkAnalyzerTool.use`
(src/tools/diagnostic_tools.py, lines 104-115); all default to the
empty string. -/
structure AnalyzerFields where
  problem : List Char
  student_work : List Char
  topic : List Char
deriving DecidableEq, Repr

/-- One iteration of the field loop of `StudentWorkAnalyzerTool.use`:
strip the segment, match its upper-cased form against the known field
names, and store the stripped text after the first colon. -/
def applyAnalyzerPart (acc : AnalyzerFields) (rawPart : List Char) : AnalyzerFields :=
  let part := pyStrip rawPart
  if startsWithL ("PROBLEM:".data) (part.map pyUpperC) then
    { acc with problem := pyStrip (afterFirstColon part) }
  else if startsWithL ("STUDENT_WORK:".data) (part.map pyUpperC) then
    { acc with student_work := pyStrip (afterFirstColon part) }
  else if startsWithL ("TOPIC:".data) (part.map pyUpperC) then
    { acc with topic := pyStrip (afterFirstColon part) }
  else acc

/-- The error string returned by `StudentWorkAnalyzerTool.use` when the
input has fewer than three segments (src/tools/diagnostic_tools.py,
line 102). -/
def invalidFormatMsg : List Char :=
  ("ERROR: Invalid input format. Expected ".data) ++ [apos] ++
  ("PROBLEM: ... ||| STUDENT_WORK: ... ||| TOPIC: ...".data) ++ [apos]

/-- Outcome of the parsing stage: either an error string returned to the
caller, or the collected fields with which `use` proceeds. -/
inductive AnalyzerResult where
  | error (msg : List Char)
  | ok (fields : AnalyzerFields)
deriving DecidableEq, Repr

/-- Model of the parsing stage of `StudentWorkAnalyzerTool.use`
(src/tools/diagnostic_tools.py, lines 98-115): split on the delimiter,
reject inputs with fewer than three segments with the fixed format
error, otherwise collect the named fields (with no emptiness check). -/
def analyzerUseParse (toolInput : List Char) : AnalyzerResult :=
  let parts := splitOn3 toolInput
  if parts.length < 3 then AnalyzerResult.error invalidFormatMsg
  else AnalyzerResult.ok (parts.foldl applyAnalyzerPart ⟨[], [], []⟩)

/-- Claim C1 fails on the code: parsing the documented missing-field
input does NOT produce any error — `use` has no empty-value check, so it
proceeds with an empty STUDENT_WORK value (contradicting the spec and
the test test_missing_student_work in src/tests/test_field_validation.py). -/
theorem analyzerParse_accepts_empty_student_work :
    analyzerUseParse
        ("PROBLEM: Solve x ||| STUDENT_WORK: ||| TOPIC: algebra".data) =
      AnalyzerResult.ok ⟨"Solve x".data, [], "algebra".data⟩ := by
  decide

/-- Counterexample to claim C4 as stated: an input with fewer than three
segments produces the special-cased invalid-format error string, which is
not of the missing-field shape. -/
theorem analyzerParse_short_input_error :
    analyzerUseParse ("PROBLEM: Solve x".data) =
      AnalyzerResult.error invalidFormatMsg ∧
    startsWithL ("ERROR: Missing required field".data) invalidFormatMsg =
      false := by
  exact ⟨by decide, by decide⟩

/-- Claim C4 as amended: whenever the input has fewer than three
segments, parsing fails with the dedicated error string
"ERROR: Invalid input format. Expected ..." (a special case distinct
from any missing-field error; the tool has no missing-field error path
at all). -/
theorem analyzerParse_too_few_segments (input : List Char)
    (h : (splitOn3 input).length < 3) :
    analyzerUseParse input = AnalyzerResult.error invalidFormatMsg := by
  unfold analyzerUseParse
  rw [if_pos h]

theorem analyzerParse_too_few_segments_witness :
    (splitOn3 ("STUDENT_WORK: x".data)).length < 3 ∧
    analyzerUseParse ("STUDENT_WORK: x".data) =
      AnalyzerResult.error invalidFormatMsg :=
  ⟨by decide, analyzerParse_too_few_segments ("STUDENT_WORK: x".data) (by decide)⟩

/-- Value of a non-empty all-digit string. -/
def digitsVal (s : List Char) : Option Nat :=
  if s = [] then none
  else if s.all (fun c => isDigitC c) then
    some (s.foldl (fun a c => a * 10 + (c.toNat - 48)) 0)
  else none

/-- Model of Python `int(s)` on an already-stripped string: an optional
single sign followed by a non-empty digit string (the underscore digit
grouping Python additionally tolerates is not modelled; no claim input
uses it).  `none` models the `ValueError` caught by the code. -/
def pyIntParse (s : List Char) : Option Int :=
  match s with
  | [] => none
  | c :: rest =>
    if decide (c = '+') then (digitsVal rest).map (fun n => (n : Int))
    else if decide (c = '-') then (digitsVal rest).map (fun n => -(n : Int))
    else (digitsVal (c :: rest)).map (fun n => (n : Int))

/-- Model of `int(part.split(":", 1)[1].strip())` with the
`except ValueError` fallback to `None` (src/tools/pedagogical_tools.py,
lines 67-71), applied to the raw text after the first colon. -/
def hintLevelFromField (raw : List Char) : Option Int :=
  pyIntParse (pyStrip raw)

/-- The severity-to-default-hint-level table of
`SocraticHintGeneratorTool._generate_socratic_hint`
(src/tools/pedagogical_tools.py, lines 167-175): the comparison is on
`severity.upper()`. -/
def severityDefaultLevel (severity : List Char) : Int :=
  if severity.map pyUpperC = "CRITICAL".data then 2
  else if severity.map pyUpperC = "MAJOR".data then 2
  else if severity.map pyUpperC = "MINOR".data then 3
  else 2

/-- The effective hint level: the clamped override when one parsed, the
severity default otherwise (src/tools/pedagogical_tools.py,
lines 167-179). -/
def hintLevelOf (severity : List Char) (ov : Option Int) : Int :=
  match ov with
  | some o => max 1 (min 4 o)
  | none => severityDefaultLevel severity

/-- Hint level as computed from the raw HINT_LEVEL field text (absent
field, or field whose value fails to parse, falls back to the severity
default). -/
def effectiveHintLevel (severity : List Char) (rawField : Option (List Char)) : Int :=
  hintLevelOf severity (rawField.bind hintLevelFromField)

/-- Claim C5: HINT_LEVEL handling — parse after trimming, clamp parseable
values to [1,4] (10 becomes 4, 0 becomes 1), treat unparseable values as
absent, and fall back to the case-insensitive severity table
CRITICAL/MAJOR to 2, MINOR to 3, anything else to 2. -/
theorem hint_level_policy :
    (∀ (sev : List Char) (o : Int), hintLevelOf sev (some o) = max 1 (min 4 o)) ∧
    (∀ sev : List Char, effectiveHintLevel sev (some ("10".data)) = 4) ∧
    (∀ sev : List Char, effectiveHintLevel sev (some ("0".data)) = 1) ∧
    (∀ sev : List Char,
      effectiveHintLevel sev (some ("abc".data)) = severityDefaultLevel sev) ∧
    (∀ sev : List Char,
      effectiveHintLevel sev (some ("2.5".data)) = severityDefaultLevel sev) ∧
    (∀ sev : List Char,
      effectiveHintLevel sev (some ([] : List Char)) = severityDefaultLevel sev) ∧
    (∀ sev : List Char,
      severityDefaultLevel (sev.map pyLowerC) = severityDefaultLevel sev) ∧
    severityDefaultLevel ("Critical".data) = 2 ∧
    severityDefaultLevel ("MAJOR".data) = 2 ∧
    severityDefaultLevel ("minor".data) = 3 ∧
    severityDefaultLevel ("unknown".data) = 2 := by
  have hmap : ∀ sev : List Char,
      (sev.map pyLowerC).map pyUpperC = sev.map pyUpperC := by
    intro sev
    rw [List.map_map]
    have : (pyUpperC ∘ pyLowerC) = pyUpperC := funext pyUpperC_pyLowerC
    rw [this]
  refine ⟨fun sev o => rfl, fun sev => ?_, fun sev => ?_, fun sev => ?_,
    fun sev => ?_, fun sev => ?_, fun sev => ?_,
    by decide, by decide, by decide, by decide⟩
  · have h : hintLevelFromField ("10".data) = some 10 := by decide
    show hintLevelOf sev (hintLevelFromField ("10".data)) = 4
    rw [h]
    simp [hintLevelOf]
  · have h : hintLevelFromField ("0".data) = some 0 := by decide
    show hintLevelOf sev (hintLevelFromField ("0".data)) = 1
    rw [h]
    simp [hintLevelOf]
  · have h : hintLevelFromField ("abc".data) = none := by decide
    show hintLevelOf sev (hintLevelFromField ("abc".data)) = severityDefaultLevel sev
    rw [h]
    rfl
  · have h : hintLevelFromField ("2.5".data) = none := by decide
    show hintLevelOf sev (hintLevelFromField ("2.5".data)) = severityDefaultLevel sev
    rw [h]
    rfl
  · have h : hintLevelFromField ([] : List Char) = none := by decide
    show hintLevelOf sev (hintLevelFromField ([] : List Char)) = severityDefaultLevel sev
    rw [h]
    rfl
  · rw [severityDefaultLevel, severityDefaultLevel, hmap sev]

/-- The two outcomes of `_generate_socratic_hint` that the downstream
prompt construction distinguishes: the success (congratulation) path,
which only uses problem, student work and topic, and the misconception
hint path, which also uses the misconception, severity and hint level. -/
inductive HintPath where
  | success (problem studentWork topic : List Char)
  | socratic (problem studentWork misconception severity topic : List Char)
      (level : Int)
deriving DecidableEq, Repr

/-- Model of the branch structure of
`SocraticHintGeneratorTool._generate_socratic_hint`
(src/tools/pedagogical_tools.py, lines 150-216): the success path is
taken when the lower-cased misconception contains "none" or "correct"
as a substring. -/
def generateSocraticHintPath (problem studentWork misconception severity topic : List Char)
    (ov : Option Int) : HintPath :=
  if containsL ("none".data) (misconception.map pyLowerC) ||
      containsL ("correct".data) (misconception.map pyLowerC) then
    HintPath.success problem studentWork topic
  else
    HintPath.socratic problem studentWork misconception severity topic
      (hintLevelOf severity ov)

/-- Claim C10: whenever the parsed MISCONCEPTION contains "none" or
"correct" case-insensitively (also inside longer words such as
"incorrect"), hint generation takes the success-response path, and the
severity and HINT_LEVEL inputs have no effect on the outcome. -/
theorem successPath_on_none_or_correct :
    (∀ (p w m sev top : List Char) (ov : Option Int),
      (containsL ("none".data) (m.map pyLowerC) = true ∨
        containsL ("correct".data) (m.map pyLowerC) = true) →
      generateSocraticHintPath p w m sev top ov = HintPath.success p w top ∧
      ∀ (sev₂ : List Char) (ov₂ : Option Int),
        generateSocraticHintPath p w m sev top ov =
          generateSocraticHintPath p w m sev₂ top ov₂) ∧
    containsL ("correct".data) ("incorrect".data) = true := by
  constructor
  · intro p w m sev top ov h
    have hcond : (containsL ("none".data) (m.map pyLowerC) ||
        containsL ("correct".data) (m.map pyLowerC)) = true := by
      rcases h with h | h <;> simp [h]
    constructor
    · rw [generateSocraticHintPath, if_pos hcond]
    · intro sev₂ ov₂
      rw [generateSocraticHintPath, if_pos hcond,
        generateSocraticHintPath, if_pos hcond]
  · decide

theorem successPath_on_none_or_correct_witness :
    generateSocraticHintPath ("p".data) ("w".data)
        ("Incorrect momentum formula".data) ("CRITICAL".data) ("t".data)
        (some 4) =
      HintPath.success ("p".data) ("w".data) ("t".data) :=
  (successPath_on_none_or_correct.1 ("p".data) ("w".data)
    ("Incorrect momentum formula".data) ("CRITICAL".data) ("t".data)
    (some 4) (Or.inr (by decide))).1
